import Mathlib

/-!
Shallow embedding of the sliding-window lidar-inertial odometry core of
Wildcat-SLAM (`src/odometry/lidar_odometry.cc`), together with theorems
settling the specification claims about it.

Conventions of the embedding:
* machine doubles become exact rationals (`ℚ`); 3-vectors become `ℚ × ℚ × ℚ`;
* rotation quaternions (Eigen `Quaterniond`, external to the repository) are
  an abstract multiplicative type `G`; the exponential map `Exp`, the rotation
  action on vectors, `slerp` and `normalized` are passed in as parameters,
  with the algebraic facts a proof needs stated as explicit hypotheses;
* deques become lists in front-to-back order; `push_back` is append,
  `pop_front` removes the head;
* a fatal `CHECK`/assertion failure and undefined behaviour (reading the
  front of an empty deque, out-of-range indexing) are modelled as `none`.
-/

/-- 3-vectors with exact rational coordinates (models Eigen `Vector3d`). -/
abbrev Vec : Type := ℚ × ℚ × ℚ

/-- An IMU input sample (`ImuData`): timestamp, gyroscope and accelerometer
readings. -/
structure ImuData where
  timestamp : ℚ
  angular_velocity : Vec
  linear_acceleration : Vec
  deriving DecidableEq, Repr

/-- A lidar point (`hilti_ros::Point`): per-point timestamp and position. -/
structure Point where
  time : ℚ
  pos : Vec
  deriving DecidableEq, Repr

/-- A dense propagated IMU state (`ImuState`), over an abstract rotation
type `G`. -/
structure ImuState (G : Type) where
  timestamp : ℚ
  pos : Vec
  rot : G
  acc : Vec
  gyr : Vec
  deriving DecidableEq, Repr

/-- A sparse trajectory control point (`SampleState`).  The source packs
`(rot_cor, pos_cor, ba_cor, bg_cor)` as the contiguous 12-double block
`data_cor`; here the four 3-vector slots are named fields.

Modelled from the spec: the `SampleState` constructor lives in a header that
is not under `src/`; per the spec's data model the correction block of a
freshly created sample state is zero, so creation sites below fill the four
`*_cor` fields with `0`. -/
structure SampleState (G : Type) where
  timestamp : ℚ
  pos : Vec
  rot : G
  ba : Vec
  bg : Vec
  grav : Vec
  rot_cor : Vec
  pos_cor : Vec
  ba_cor : Vec
  bg_cor : Vec
  deriving DecidableEq, Repr

/-- A planar surfel; only its timestamp matters to the window manager. -/
structure Surfel where
  timestamp : ℚ
  deriving DecidableEq, Repr

/-- The configuration fields the embedded functions read. -/
structure Config where
  imu_rate : ℚ
  sample_dt : ℚ
  gravity_norm : ℚ
  deriving DecidableEq, Repr

/-- Placeholder element used by `List.getD` at in-range indices. -/
def dummyImu {G : Type} [One G] : ImuState G :=
  { timestamp := 0, pos := 0, rot := 1, acc := 0, gyr := 0 }

/-- Placeholder element used by `List.getD` at in-range indices. -/
def dummySample {G : Type} [One G] : SampleState G :=
  { timestamp := 0, pos := 0, rot := 1, ba := 0, bg := 0, grav := 0,
    rot_cor := 0, pos_cor := 0, ba_cor := 0, bg_cor := 0 }

/-- `UpdateSamplePoses` (post-solve corrector step on the sample deque,
`lidar_odometry.cc:113-120`): each sample state composes its rotation and
translation corrections into the nominals and zeroes those two correction
slots.  The bias and gravity fields, and the `ba_cor`/`bg_cor` slots of
`data_cor`, are not touched by the source. -/
def UpdateSamplePoses {G : Type} [Mul G] (exp : Vec → G)
    (sample_states : List (SampleState G)) : List (SampleState G) :=
  sample_states.map fun s =>
    { s with
      rot := exp s.rot_cor * s.rot
      pos := s.pos_cor + s.pos
      rot_cor := 0
      pos_cor := 0 }

/-- Concrete rotation carrier used to evaluate theorems on closed inputs:
rotation vectors composed additively (written multiplicatively). -/
abbrev RotW : Type := Multiplicative Vec

/-- Concrete exponential map for `RotW`. -/
def expW : Vec → RotW := fun v => Multiplicative.ofAdd v

/-- Concrete (trivial) rotation action for `RotW`. -/
def actW : RotW → Vec → Vec := fun _ v => v

/-- Concrete spherical interpolation stand-in for `RotW`. -/
def slerpW : ℚ → RotW → RotW → RotW := fun _ a _ => a

/-- Concrete stand-in for Eigen's `normalized`. -/
def normalizeW : Vec → Vec := fun v => v

/-- Non-decreasing timestamps along a buffer/deque, through accessor `f`. -/
def TimesSorted {α : Type} (f : α → ℚ) : List α → Prop
  | [] => True
  | [_] => True
  | a :: b :: rest => f a ≤ f b ∧ TimesSorted f (b :: rest)

instance timesSortedDec {α : Type} (f : α → ℚ) :
    ∀ l : List α, Decidable (TimesSorted f l)
  | [] => .isTrue trivial
  | [_] => .isTrue trivial
  | a :: b :: rest =>
      letI := timesSortedDec f (b :: rest)
      inferInstanceAs (Decidable (f a ≤ f b ∧ TimesSorted f (b :: rest)))

/-- The sample `pop_front` loop of `ShrinkToFit` (`lidar_odometry.cc:219-221`):
drop from the front while `back.t - front.t > window_duration`.  The back
element never changes while the deque is non-empty, so it is a parameter;
reaching the empty deque means the loop condition would read the front of an
empty deque (undefined behaviour), modelled as `none`. -/
def popSampleSpan {G : Type} (window_duration back_t : ℚ) :
    List (SampleState G) → Option (List (SampleState G))
  | [] => none
  | s :: rest =>
      if window_duration < back_t - s.timestamp then
        popSampleSpan window_duration back_t rest
      else some (s :: rest)

/-- `while (f(front) < bound) pop_front();` — the loop condition reads the
front, so an emptied deque is undefined behaviour (`none`). -/
def dropFrontWhileLt {α : Type} (f : α → ℚ) (bound : ℚ) : List α → Option (List α)
  | [] => none
  | a :: rest => if f a < bound then dropFrontWhileLt f bound rest else some (a :: rest)

/-- `ShrinkToFit` (`lidar_odometry.cc:212-228`): early-return when the sample
deque is empty or its span already fits; otherwise trim samples to the window
span, then IMU states older than the new oldest sample, then surfels older
than the new oldest IMU state. -/
def ShrinkToFit {G : Type} (sample_states : List (SampleState G))
    (imu_states : List (ImuState G)) (surfels : List Surfel)
    (window_duration : ℚ) :
    Option (List (SampleState G) × List (ImuState G) × List Surfel) :=
  match sample_states.head?, sample_states.getLast? with
  | some s0, some sb =>
      if sb.timestamp - s0.timestamp ≤ window_duration then
        some (sample_states, imu_states, surfels)
      else
        match popSampleSpan window_duration sb.timestamp sample_states with
        | none => none
        | some samples' =>
            match samples'.head? with
            | none => none
            | some s0' =>
                match dropFrontWhileLt (fun i => i.timestamp) s0'.timestamp
                    imu_states with
                | none => none
                | some imus' =>
                    match imus'.head? with
                    | none => none
                    | some i0' =>
                        match dropFrontWhileLt (fun s => s.timestamp)
                            i0'.timestamp surfels with
                        | none => none
                        | some surfels' => some (samples', imus', surfels')
  | _, _ => some (sample_states, imu_states, surfels)

/-- First trimming loop of `SyncHeadingMsgs` (`lidar_odometry.cc:430-433`):
pop IMU samples older than the front point; after each pop a fatal
`CHECK(!imu_buff_.empty())` fires if the buffer emptied. -/
def syncDropImu (front_point_time : ℚ) : List ImuData → Option (List ImuData)
  | [] => none
  | a :: rest =>
      if a.timestamp < front_point_time then
        match rest with
        | [] => none
        | b :: more => syncDropImu front_point_time (b :: more)
      else some (a :: rest)

/-- Second trimming loop of `SyncHeadingMsgs` (`lidar_odometry.cc:435-438`):
pop points older than the (new) front IMU sample, with the same fatal
emptiness check. -/
def syncDropPoints (front_imu_time : ℚ) : List Point → Option (List Point)
  | [] => none
  | a :: rest =>
      if a.time < front_imu_time then
        match rest with
        | [] => none
        | b :: more => syncDropPoints front_imu_time (b :: more)
      else some (a :: rest)

/-- `SyncHeadingMsgs` (`lidar_odometry.cc:415-443`).  Result:
`(return value, sync_done after the call, imu buffer, point buffer)`. -/
def SyncHeadingMsgs (sync_done : Bool) (imu_buff : List ImuData)
    (points_buff : List Point) :
    Option (Bool × Bool × List ImuData × List Point) :=
  if sync_done then some (true, true, imu_buff, points_buff)
  else
    match imu_buff.getLast?, points_buff.head? with
    | some imu_back, some pt_front =>
        if imu_back.timestamp < pt_front.time then
          some (false, false, imu_buff, points_buff)
        else
          match syncDropImu pt_front.time imu_buff with
          | none => none
          | some imu' =>
              match imu'.head? with
              | none => none
              | some imu_front =>
                  match syncDropPoints imu_front.timestamp points_buff with
                  | none => none
                  | some pts' => some (true, true, imu', pts')
    | _, _ => some (false, false, imu_buff, points_buff)

/-- `std::upper_bound` over the sample-state deque with comparator
`lhs < rhs->timestamp` (`lidar_odometry.cc:236,242,293`): for a deque that is
non-decreasing in timestamp, the index of the first sample state whose
timestamp strictly exceeds `x`. -/
def upperBoundIdx {G : Type} (sample_states : List (SampleState G)) (x : ℚ) : ℕ :=
  (sample_states.takeWhile (fun s => ¬ x < s.timestamp)).length

/-- A robust-loss wrapper handed to the solver. -/
inductive Loss where
  | cauchy (scale : ℚ)
  | trivialLoss
  deriving DecidableEq, Repr

/-- The residual block registered for one surfel correspondence: the
`SurfelMatchBinaryFactor<kind>` template parameter, the robust loss, and the
`data_cor` parameter blocks passed to `AddResidualBlock`, identified by the
index of their owning sample state in the window deque. -/
structure FactorRef where
  kind : ℕ
  loss : Loss
  blocks : List ℕ
  deriving DecidableEq, Repr

/-- Per-correspondence body of `BuildLidarResiduals`
(`lidar_odometry.cc:233-279`).  Outer `none` is a fatal `CHECK`; an inner
`none` is the (unreachable) `continue` guard skipping the correspondence. -/
def BuildLidarFactor {G : Type} (sample_states : List (SampleState G))
    (s1t s2t : ℚ) : Option (Option FactorRef) :=
  if ¬ s1t < s2t then none
  else
    let ts := sample_states.map (fun s => s.timestamp)
    let n := sample_states.length
    let i1 := upperBoundIdx sample_states s1t
    if i1 = 0 ∨ i1 = n then none
    else
      let i2 := upperBoundIdx sample_states s2t
      if i2 = 0 ∨ i2 = n then none
      else if i1 = 0 ∨ i1 = n ∨ i2 = 0 ∨ i2 = n then some none
      else
        let r1t := ts.getD i1 0
        let l2t := ts.getD (i2 - 1) 0
        if r1t < l2t then
          some (some { kind := 0, loss := Loss.cauchy (2 / 5), blocks := [i1 - 1, i1, i2 - 1, i2] })
        else if r1t = l2t then
          some (some { kind := 1, loss := Loss.cauchy (2 / 5), blocks := [i1 - 1, i1, i2] })
        else
          some (some { kind := 2, loss := Loss.cauchy (2 / 5), blocks := [i1 - 1, i1] })

/-- Step-2 loop body of `PredictImuStatesAndSampleStates`
(`lidar_odometry.cc:370-379`): the two-step central integrator, reading the
two most recent IMU states `p2 = states[size-2]`, `p1 = states[size-1]`. -/
def mkPredictedImu {G : Type} [Mul G] (exp : Vec → G) (act : G → Vec → Vec)
    (dt : ℚ) (ba bg grav : Vec) (p2 p1 : ImuState G) (msg : ImuData) :
    ImuState G :=
  { timestamp := msg.timestamp
    acc := msg.linear_acceleration
    gyr := msg.angular_velocity
    rot := p1.rot * exp (dt • ((1 / 2 : ℚ) • (p1.gyr + msg.angular_velocity) - bg))
    pos := (dt * dt) • (act p2.rot (p2.acc - ba) + grav) + (2 : ℚ) • p1.pos - p2.pos }

/-- Step-2 loop of `PredictImuStatesAndSampleStates`
(`lidar_odometry.cc:367-385`): consume the IMU buffer, appending one
predicted state per sample, breaking once a state reaches `end_time`.
Returns the appended states and the leftover buffer. -/
def predictLoop {G : Type} [Mul G] (exp : Vec → G) (act : G → Vec → Vec)
    (dt : ℚ) (ba bg grav : Vec) (end_time : ℚ) :
    List ImuData → ImuState G → ImuState G → List (ImuState G) × List ImuData
  | [], _, _ => ([], [])
  | msg :: rest, p2, p1 =>
      let st := mkPredictedImu exp act dt ba bg grav p2 p1 msg
      if end_time ≤ st.timestamp then ([st], rest)
      else
        let r := predictLoop exp act dt ba bg grav end_time rest p1 st
        (st :: r.1, r.2)

/-- The two IMU states and the single sample state built by the one-time
initialization block (`lidar_odometry.cc:333-361`). -/
structure InitResult (G : Type) where
  imu0 : ImuState G
  imu1 : ImuState G
  ss : SampleState G

/-- One-time initialization (`lidar_odometry.cc:333-361`): state 0 has
identity rotation and zero position; state 1 rotates by the averaged first
two gyro readings over `dt`; one sample state is created at state 0's
timestamp with zero biases, gravity `-gravity_norm • normalize acc₀`, and
pose copied from state 0. -/
def initWindow {G : Type} [One G] [Mul G] (exp : Vec → G)
    (normalize : Vec → Vec) (gravity_norm dt : ℚ) (m0 m1 : ImuData) :
    InitResult G :=
  let st0 : ImuState G :=
    { timestamp := m0.timestamp, acc := m0.linear_acceleration,
      gyr := m0.angular_velocity, pos := 0, rot := 1 }
  let st1 : ImuState G :=
    { timestamp := m1.timestamp, acc := m1.linear_acceleration,
      gyr := m1.angular_velocity, pos := 0,
      rot := exp (dt • ((1 / 2 : ℚ) • (st0.gyr + m1.angular_velocity))) }
  let ss : SampleState G :=
    { timestamp := st0.timestamp, ba := 0, bg := 0,
      grav := -gravity_norm • normalize st0.acc,
      rot := st0.rot, pos := st0.pos,
      rot_cor := 0, pos_cor := 0, ba_cor := 0, bg_cor := 0 }
  { imu0 := st0, imu1 := st1, ss := ss }

/-- The timestamps visited by the step-3 `for` loop
(`lidar_odometry.cc:390`): `old_t + k·sample_dt` for `k ≥ 1` while
`< end_time` (the caller rejects `sample_dt ≤ 0`, where the C++ loop would
not terminate). -/
def sampleTimes (old_t sample_dt end_time : ℚ) : List ℚ :=
  (List.range (((end_time - old_t) / sample_dt).ceil.toNat)).filterMap
    (fun k =>
      if old_t + (k + 1 : ℕ) * sample_dt < end_time then
        some (old_t + (k + 1 : ℕ) * sample_dt)
      else none)

/-- Step-3 loop body (`lidar_odometry.cc:390-411`): locate the bracketing
IMU states by `std::lower_bound`, interpolate (slerp for rotation, linear for
position), and build the new sample state; the `CHECK`s become `none`. -/
def mkExtendedSample {G : Type} [One G] (slerp : ℚ → G → G → G)
    (ba bg grav : Vec) (imu_states : List (ImuState G)) (t : ℚ) :
    Option (SampleState G) :=
  let idx := (imu_states.takeWhile (fun a => a.timestamp < t)).length
  if idx = 0 ∨ idx = imu_states.length then none
  else
    let prev := imu_states.getD (idx - 1) dummyImu
    let cur := imu_states.getD idx dummyImu
    let factor := (t - prev.timestamp) / (cur.timestamp - prev.timestamp)
    if factor < 0 ∨ 1 < factor then none
    else some
      { timestamp := t, ba := ba, bg := bg, grav := grav,
        rot := slerp factor prev.rot cur.rot,
        pos := (1 - factor) • prev.pos + factor • cur.pos,
        rot_cor := 0, pos_cor := 0, ba_cor := 0, bg_cor := 0 }

/-- Step 3 of `PredictImuStatesAndSampleStates`: the new sample states, in
order. -/
def extendSamples {G : Type} [One G] (slerp : ℚ → G → G → G)
    (ba bg grav : Vec) (imu_states : List (ImuState G))
    (old_t sample_dt end_time : ℚ) : Option (List (SampleState G)) :=
  (sampleTimes old_t sample_dt end_time).foldlM
    (fun acc t => (mkExtendedSample slerp ba bg grav imu_states t).map
      (fun s => acc ++ [s])) []

/-- `PredictImuStatesAndSampleStates` (`lidar_odometry.cc:328-413`) acting on
`(imu_buff, imu_states, sample_states)`; `init_sld_win` is the static
initialization flag.  Returns the updated buffers/deques, or `none` on a
fatal `CHECK` or out-of-range deque access. -/
def PredictImuStatesAndSampleStates {G : Type} [Mul G] [One G]
    (exp : Vec → G) (act : G → Vec → Vec) (slerp : ℚ → G → G → G)
    (normalize : Vec → Vec) (cfg : Config) (init_sld_win : Bool)
    (imu_buff : List ImuData) (imu_states : List (ImuState G))
    (sample_states : List (SampleState G)) (end_time : ℚ) :
    Option (List ImuData × List (ImuState G) × List (SampleState G)) :=
  if imu_buff.length < 2 then none
  else
    let dt := 1 / cfg.imu_rate
    let afterInit :=
      if init_sld_win then (imu_buff, imu_states, sample_states)
      else
        match imu_buff with
        | m0 :: m1 :: rest =>
            let ini := initWindow exp normalize cfg.gravity_norm dt m0 m1
            (rest, imu_states ++ [ini.imu0, ini.imu1], sample_states ++ [ini.ss])
        | _ => ([], [], [])
    match afterInit.2.2.getLast? with
    | none => none
    | some latest =>
        let ba := latest.ba
        let bg := latest.bg
        let grav := latest.grav
        match afterInit.2.1.reverse with
        | p1 :: p2 :: _ =>
            let r := predictLoop exp act dt ba bg grav end_time afterInit.1 p2 p1
            let imu_states2 := afterInit.2.1 ++ r.1
            if cfg.sample_dt ≤ 0 then none
            else
              match extendSamples slerp ba bg grav imu_states2
                  latest.timestamp cfg.sample_dt end_time with
              | none => none
              | some ext => some (r.2, imu_states2, afterInit.2.2 ++ ext)
        | _ => none

/-- `BuildSweep` (`lidar_odometry.cc:104-111`): read the front (undefined on
an empty buffer), then move points strictly older than `sweep_endtime` into
the sweep.  Returns `(sweep, remaining buffer)`. -/
def BuildSweep (points_buff : List Point) (sweep_endtime : ℚ) :
    Option (List Point × List Point) :=
  match points_buff with
  | [] => none
  | _ => some (points_buff.takeWhile (fun p => p.time < sweep_endtime),
               points_buff.dropWhile (fun p => p.time < sweep_endtime))

/-- What the black-box trust-region solve (`ceres::Solve`) guarantees under
`SetParameterization(sample_states[0]->data_cor, SubsetParameterization(12, {3,4,5}))`
(`lidar_odometry.cc:512-513`): only the `data_cor` parameter blocks may
change, and entries 3..5 of the first block — its `pos_cor` slot — are held
constant. -/
def SolveRespectsPinning {G : Type} [One G]
    (pre post : List (SampleState G)) : Prop :=
  post.length = pre.length ∧
  ∀ i, i < pre.length →
    ((post.getD i dummySample).timestamp = (pre.getD i dummySample).timestamp ∧
     (post.getD i dummySample).pos = (pre.getD i dummySample).pos ∧
     (post.getD i dummySample).rot = (pre.getD i dummySample).rot ∧
     (post.getD i dummySample).ba = (pre.getD i dummySample).ba ∧
     (post.getD i dummySample).bg = (pre.getD i dummySample).bg ∧
     (post.getD i dummySample).grav = (pre.getD i dummySample).grav) ∧
    (i = 0 → (post.getD i dummySample).pos_cor = (pre.getD i dummySample).pos_cor)

/-- Modelled from the spec: `CubicBSplineInterpolator`
(`odometry/spline_interpolation.h`, not under `src/`).  Control values `vs`
at knots `ts` (the sample timestamps). -/
structure CubicBSplineInterpolator where
  ts : List ℚ
  vs : List Vec
  deriving DecidableEq, Repr

/-- Index of the knot segment holding `t` (largest `i` with `ts[i] ≤ t`). -/
def bsplineSegIdx (ts : List ℚ) (t : ℚ) : ℕ :=
  (ts.takeWhile (fun u => u ≤ t)).length - 1

/-- Modelled from the spec: inside the support, a uniform cubic B-spline
blends the four control values around the bracketing knot segment with the
standard uniform cubic basis weights, clamping control indices at the
ends. -/
def bsplineEval (sp : CubicBSplineInterpolator) (t : ℚ) : Vec :=
  let i := bsplineSegIdx sp.ts t
  let ti := sp.ts.getD i 0
  let ti1 := sp.ts.getD (i + 1) 0
  let u := (t - ti) / (ti1 - ti)
  let v := fun j : ℕ => sp.vs.getD (min j (sp.vs.length - 1)) 0
  ((1 - u) ^ 3 / 6) • v (i - 1) +
    ((3 * u ^ 3 - 6 * u ^ 2 + 4) / 6) • v i +
    ((-3 * u ^ 3 + 3 * u ^ 2 + 3 * u + 1) / 6) • v (i + 1) +
    (u ^ 3 / 6) • v (i + 2)

/-- Modelled from the spec: `Interp` returns a value only inside the spline's
support interval `[ts.head, ts.last]`, and `none` outside it. -/
def CubicBSplineInterpolator.interp (sp : CubicBSplineInterpolator)
    (t : ℚ) : Option Vec :=
  match sp.ts.head?, sp.ts.getLast? with
  | some t0, some tN =>
      if t0 ≤ t ∧ t ≤ tN then some (bsplineEval sp t) else none
  | _, _ => none

/-- `CubicBSplineSampleCorrector` (`lidar_odometry.cc:122-135`): one
interpolator through the `rot_cor` values and one through the `pos_cor`
values, both knotted at the sample timestamps. -/
def CubicBSplineSampleCorrector {G : Type}
    (sample_states : List (SampleState G)) :
    CubicBSplineInterpolator × CubicBSplineInterpolator :=
  (⟨sample_states.map (fun s => s.timestamp), sample_states.map (fun s => s.rot_cor)⟩,
   ⟨sample_states.map (fun s => s.timestamp), sample_states.map (fun s => s.pos_cor)⟩)

/-- `GetCorr` (`lidar_odometry.cc:137-149`): both interpolations succeed or
both fail (they share the knot vector; the source `CHECK`s the agreement). -/
def getCorr {G : Type} (sample_states : List (SampleState G)) (t : ℚ) :
    Option (Vec × Vec) :=
  let c := CubicBSplineSampleCorrector sample_states
  match c.1.interp t, c.2.interp t with
  | some rc, some pc => some (rc, pc)
  | _, _ => none

/-- A rigid transform.  Modelled from the spec: `Rigid3d` lives in
`common/utils.h`, not under `src/`; per the spec it composes as a rigid
transform (rotate-then-translate). -/
structure Rigid (G : Type) where
  t : Vec
  r : G

/-- The rigid transform of an IMU state's pose. -/
def rigidOf {G : Type} (s : ImuState G) : Rigid G := ⟨s.pos, s.rot⟩

/-- Rigid composition `a ∘ b`. -/
def rigidMul {G : Type} [Mul G] (act : G → Vec → Vec) (a b : Rigid G) :
    Rigid G :=
  ⟨a.t + act a.r b.t, a.r * b.r⟩

/-- Rigid inverse. -/
def rigidInv {G : Type} [Group G] (act : G → Vec → Vec) (a : Rigid G) :
    Rigid G :=
  ⟨-act a.r⁻¹ a.t, a.r⁻¹⟩

/-- First pass of `UpdateImuPoses` (`lidar_odometry.cc:168-180`): inside the
spline support, layer the interpolated corrections onto the state. -/
def corrStep {G : Type} [Mul G] (exp : Vec → G)
    (sample_states : List (SampleState G)) (s : ImuState G) : ImuState G :=
  match getCorr sample_states s.timestamp with
  | some (rc, pc) => { s with rot := exp rc * s.rot, pos := pc + s.pos }
  | none => s

/-- Which IMU states the interpolator reaches (per index). -/
def corrFlags {G : Type} (sample_states : List (SampleState G))
    (imu_states : List (ImuState G)) : List Bool :=
  imu_states.map (fun s => (getCorr sample_states s.timestamp).isSome)

/-- `corrected_first_idx` of `UpdateImuPoses`: index of the first `true`. -/
def firstTrueIdx : List Bool → Option ℕ
  | [] => none
  | b :: rest => if b then some 0 else (firstTrueIdx rest).map (· + 1)

/-- `corrected_last_idx` of `UpdateImuPoses`: index of the last `true`. -/
def lastTrueIdx : List Bool → Option ℕ
  | [] => none
  | b :: rest =>
      match lastTrueIdx rest with
      | some k => some (k + 1)
      | none => if b then some 0 else none

/-- Head/tail extrapolation loops of `UpdateImuPoses`
(`lidar_odometry.cc:184-197`): walking away from the corrected range, each
state is rewritten as `old(i) ∘ old(neighbour)⁻¹ ∘ new(neighbour)`, keeping
its original relative transform to its already-rewritten neighbour.  The
input list is ordered walking away from the corrected range; anchors are the
neighbour's old and new poses. -/
def fixChain {G : Type} [Group G] (act : G → Vec → Vec) :
    List (ImuState G) → ImuState G → ImuState G → List (ImuState G)
  | [], _, _ => []
  | o :: rest, aOld, aNew =>
      let p := rigidMul act (rigidMul act (rigidOf o) (rigidInv act (rigidOf aOld)))
        (rigidOf aNew)
      let n := { o with pos := p.t, rot := p.r }
      n :: fixChain act rest o n

/-- `UpdateImuPoses` (`lidar_odometry.cc:162-200`): apply the B-spline
corrections inside the support, then extrapolate by relative transforms over
the head `[0, first)` (right to left) and the tail `(last, N)` (left to
right). -/
def UpdateImuPoses {G : Type} [Group G] (exp : Vec → G)
    (act : G → Vec → Vec) (sample_states : List (SampleState G))
    (imu_states : List (ImuState G)) : List (ImuState G) :=
  let new1 := imu_states.map (corrStep exp sample_states)
  match firstTrueIdx (corrFlags sample_states imu_states),
      lastTrueIdx (corrFlags sample_states imu_states) with
  | some f, some l =>
      let head := (fixChain act ((imu_states.take f).reverse)
        (imu_states.getD f dummyImu) (new1.getD f dummyImu)).reverse
      let middle := (new1.drop f).take (l + 1 - f)
      let tail := fixChain act (imu_states.drop (l + 1))
        (imu_states.getD l dummyImu) (new1.getD l dummyImu)
      head ++ middle ++ tail
  | _, _ => new1

/-- `LidarOdometry::AddImuData` (`lidar_odometry.cc:555-559`): a plain
unconditional `push_back` of the sample. -/
def AddImuData (imu_buff : List ImuData) (msg : ImuData) : List ImuData :=
  imu_buff ++ [msg]

/-- The point-ingest loop at the head of `LidarOdometry::AddLidarScan`
(`lidar_odometry.cc:447-454`): transform each point by the lidar-to-IMU
extrinsic (`ext`, external geometry), fatally `CHECK` that its timestamp is
not older than the buffer back, drop it unless the range/blind-box prefilter
(`keep`, external geometry) admits it, else append. -/
def ingestPoints (ext : Vec → Vec) (keep : Point → Bool) :
    List Point → List Point → Option (List Point)
  | buff, [] => some buff
  | buff, pt :: rest =>
      let pt' : Point := { pt with pos := ext pt.pos }
      match buff.getLast? with
      | some b =>
          if pt'.time < b.time then none
          else ingestPoints ext keep (if keep pt' then buff ++ [pt'] else buff) rest
      | none => ingestPoints ext keep (if keep pt' then buff ++ [pt'] else buff) rest

/-- Per-sample contract of one Corrector pass (amended claim C1): the pose
corrections are composed into the nominal rotation/position and zeroed, while
biases, gravity and the `ba_cor`/`bg_cor` slots of `data_cor` are left
untouched. -/
def corUpdatedOK {G : Type} [Mul G] [One G] (exp : Vec → G)
    (l : List (SampleState G)) (i : ℕ) : Prop :=
  (UpdateSamplePoses exp l).length = l.length ∧
  ((UpdateSamplePoses exp l).getD i dummySample).rot_cor = 0 ∧
  ((UpdateSamplePoses exp l).getD i dummySample).pos_cor = 0 ∧
  ((UpdateSamplePoses exp l).getD i dummySample).rot
      = exp (l.getD i dummySample).rot_cor * (l.getD i dummySample).rot ∧
  ((UpdateSamplePoses exp l).getD i dummySample).pos
      = (l.getD i dummySample).pos_cor + (l.getD i dummySample).pos ∧
  ((UpdateSamplePoses exp l).getD i dummySample).timestamp
      = (l.getD i dummySample).timestamp ∧
  ((UpdateSamplePoses exp l).getD i dummySample).ba = (l.getD i dummySample).ba ∧
  ((UpdateSamplePoses exp l).getD i dummySample).bg = (l.getD i dummySample).bg ∧
  ((UpdateSamplePoses exp l).getD i dummySample).grav = (l.getD i dummySample).grav ∧
  ((UpdateSamplePoses exp l).getD i dummySample).ba_cor = (l.getD i dummySample).ba_cor ∧
  ((UpdateSamplePoses exp l).getD i dummySample).bg_cor = (l.getD i dummySample).bg_cor

/-- Post-trim window shape asserted by claim C2: the three deques are
non-empty, their start timestamps are ordered sample ≤ imu ≤ surfel, and the
sample span fits the window. -/
def trimmedWindowOK {G : Type} [One G] (samples : List (SampleState G))
    (imus : List (ImuState G)) (surfels : List Surfel) (w : ℚ) : Prop :=
  samples ≠ [] ∧ imus ≠ [] ∧ surfels ≠ [] ∧
  (samples.getD 0 dummySample).timestamp ≤ (imus.getD 0 dummyImu).timestamp ∧
  (imus.getD 0 dummyImu).timestamp ≤ (surfels.getD 0 { timestamp := 0 }).timestamp ∧
  (samples.getLast?.getD dummySample).timestamp
      - (samples.getD 0 dummySample).timestamp ≤ w

/-- The three-case parameter-block table of claim C4, phrased against
`BuildLidarFactor`. -/
def lidarTopologyOK {G : Type} (sample_states : List (SampleState G))
    (s1t s2t : ℚ) : Prop :=
  let ts := sample_states.map (fun s => s.timestamp)
  let i1 := upperBoundIdx sample_states s1t
  let i2 := upperBoundIdx sample_states s2t
  (ts.getD i1 0 < ts.getD (i2 - 1) 0 →
    BuildLidarFactor sample_states s1t s2t =
      some (some { kind := 0, loss := Loss.cauchy (2 / 5),
                   blocks := [i1 - 1, i1, i2 - 1, i2] })) ∧
  (ts.getD i1 0 = ts.getD (i2 - 1) 0 →
    BuildLidarFactor sample_states s1t s2t =
      some (some { kind := 1, loss := Loss.cauchy (2 / 5),
                   blocks := [i1 - 1, i1, i2] })) ∧
  (ts.getD (i2 - 1) 0 < ts.getD i1 0 →
    BuildLidarFactor sample_states s1t s2t =
      some (some { kind := 2, loss := Loss.cauchy (2 / 5),
                   blocks := [i1 - 1, i1] }))

/-- The two-step central-integrator recurrence of claim C5 relating an
appended IMU state `c` to its two predecessors. -/
def centralStepOK {G : Type} [Mul G] (exp : Vec → G) (act : G → Vec → Vec)
    (dt : ℚ) (ba bg grav : Vec) (p2 p1 c : ImuState G) : Prop :=
  c.rot = p1.rot * exp (dt • ((1 / 2 : ℚ) • (p1.gyr + c.gyr) - bg)) ∧
  c.pos = (dt * dt) • (act p2.rot (p2.acc - ba) + grav)
      + (2 : ℚ) • p1.pos - p2.pos

/-- The recurrence of claim C5 along a whole appended run. -/
def chainStepsOK {G : Type} [Mul G] (exp : Vec → G) (act : G → Vec → Vec)
    (dt : ℚ) (ba bg grav : Vec) :
    ImuState G → ImuState G → List (ImuState G) → Prop
  | _, _, [] => True
  | p2, p1, c :: rest =>
      centralStepOK exp act dt ba bg grav p2 p1 c ∧
      chainStepsOK exp act dt ba bg grav p1 c rest

/-- Test fixture: a sample state at timestamp `t`, with everything else
trivial. -/
def sampleAt (t : ℚ) : SampleState RotW :=
  { timestamp := t, pos := 0, rot := 1, ba := 0, bg := 0, grav := 0,
    rot_cor := 0, pos_cor := 0, ba_cor := 0, bg_cor := 0 }

/-- Test fixture: an IMU state at timestamp `t`. -/
def imuAt (t : ℚ) : ImuState RotW :=
  { timestamp := t, pos := 0, rot := 1, acc := 0, gyr := 0 }

/-- Test fixture: an IMU input sample at timestamp `t`. -/
def imuMsgAt (t : ℚ) : ImuData :=
  { timestamp := t, angular_velocity := 0, linear_acceleration := 0 }

/-- Test fixture: a lidar point at timestamp `t`. -/
def pointAt (t : ℚ) : Point := { time := t, pos := 0 }

/-- Placeholder used by `List.getD` at in-range indices. -/
def dummyMsg : ImuData :=
  { timestamp := 0, angular_velocity := 0, linear_acceleration := 0 }

/-- Placeholder used by `List.getD` at in-range indices. -/
def dummyPoint : Point := { time := 0, pos := 0 }

/-- Test fixture configuration: 1 Hz IMU, samples every 100 s, unit
gravity. -/
def cfgW : Config := { imu_rate := 1, sample_dt := 100, gravity_norm := 1 }

lemma getD_map_of_lt {α β : Type} (f : α → β) (l : List α) (i : ℕ) (d : β)
    (d' : α) (h : i < l.length) : (l.map f).getD i d = f (l.getD i d') := by
  induction l generalizing i with
  | nil => simp at h
  | cons a rest ih =>
      cases i with
      | zero => simp
      | succ j =>
          simp only [List.map_cons, List.getD_cons_succ]
          exact ih j (by simpa using h)

/-- Claim C1 (as stated) is false: after a Corrector pass the `ba_cor` slot
of `data_cor` keeps whatever value the solver left there — here `(1,0,0)` —
so not every component of the 12-element correction block is zero, and the
bias nominal is not updated from it. -/
theorem claim1_counterexample :
    ¬ (∀ s ∈ UpdateSamplePoses expW [{ sampleAt 0 with ba_cor := (1, 0, 0) }],
        s.ba_cor = 0 ∧ s.bg_cor = 0) := by
  decide

/-- Claim C1, amended: after any Corrector pass, every sample state's
`rot_cor` and `pos_cor` are exactly zero and its rotation/position nominals
are updated by composition with those corrections, while the bias and
gravity nominals — and the `ba_cor`/`bg_cor` slots of `data_cor` — are left
unchanged. -/
theorem claim1_corrector_updates {G : Type} [Mul G] [One G] (exp : Vec → G)
    (l : List (SampleState G)) (i : ℕ) (h : i < l.length) :
    corUpdatedOK exp l i := by
  simp only [corUpdatedOK, UpdateSamplePoses]
  rw [getD_map_of_lt _ l i dummySample dummySample h]
  simp

/-- Witness for `claim1_corrector_updates` at a concrete sample state. -/
theorem claim1_corrector_updates_witness :
    0 < ([sampleAt 0] : List (SampleState RotW)).length ∧
    corUpdatedOK expW [sampleAt 0] 0 :=
  ⟨by decide, claim1_corrector_updates expW [sampleAt 0] 0 (by decide)⟩

/-- Claim C10: `AddImuData` unconditionally appends its sample — no
timestamp-monotonicity check, no filtering, no error even for an
out-of-order sample — while the point-ingest path of `AddLidarScan` fatally
asserts when a point is older than the buffer back. -/
theorem claim10_addimu_unchecked :
    (∀ (imu_buff : List ImuData) (msg : ImuData),
        AddImuData imu_buff msg = imu_buff ++ [msg]) ∧
    (∀ (ext : Vec → Vec) (keep : Point → Bool) (buff : List Point)
        (b pt : Point) (rest : List Point),
        buff.getLast? = some b → pt.time < b.time →
        ingestPoints ext keep buff (pt :: rest) = none) := by
  constructor
  · intro buff msg
    rfl
  · intro ext keep buff b pt rest h1 h2
    unfold ingestPoints
    rw [h1]
    simp [h2]

/-- Witness for `claim10_addimu_unchecked`: an out-of-order IMU sample is
appended anyway; an out-of-order point kills the ingest. -/
theorem claim10_addimu_unchecked_witness :
    AddImuData [imuMsgAt 1] (imuMsgAt 0) = [imuMsgAt 1] ++ [imuMsgAt 0] ∧
    ingestPoints (fun v => v) (fun _ => true) [pointAt 1] [pointAt 0] = none :=
  ⟨claim10_addimu_unchecked.1 [imuMsgAt 1] (imuMsgAt 0),
   claim10_addimu_unchecked.2 (fun v => v) (fun _ => true) [pointAt 1]
     (pointAt 1) (pointAt 0) [] (by decide) (by decide)⟩

lemma timesSorted_tail {α : Type} (f : α → ℚ) (a : α) (rest : List α)
    (h : TimesSorted f (a :: rest)) : TimesSorted f rest := by
  cases rest with
  | nil => trivial
  | cons b more => exact h.2

lemma timesSorted_head_le {α : Type} (f : α → ℚ) :
    ∀ (rest : List α) (a : α), TimesSorted f (a :: rest) →
      ∀ b ∈ rest, f a ≤ f b := by
  intro rest
  induction rest with
  | nil => intro a _ b hb; simp at hb
  | cons c cs ih =>
      intro a h b hb
      rcases List.mem_cons.mp hb with rfl | hb
      · exact h.1
      · exact le_trans h.1 (ih c h.2 b hb)

lemma takeWhile_dropWhile_filter_of_sorted {α : Type} (f : α → ℚ) (c : ℚ) :
    ∀ l : List α, TimesSorted f l →
      l.takeWhile (fun x => f x < c) = l.filter (fun x => f x < c) ∧
      l.dropWhile (fun x => f x < c) = l.filter (fun x => ¬ f x < c) := by
  intro l
  induction l with
  | nil => intro _; simp
  | cons a rest ih =>
      intro h
      have htail := timesSorted_tail f a rest h
      by_cases ha : f a < c
      · have := ih htail
        simp [List.takeWhile_cons, List.dropWhile_cons, List.filter_cons, ha,
          this.1, this.2]
      · have hrest : ∀ b ∈ rest, ¬ f b < c := by
          intro b hb hbc
          exact ha (lt_of_le_of_lt (timesSorted_head_le f rest a h b hb) hbc)
        constructor
        · have hnil : List.filter (fun x => decide (f x < c)) rest = [] :=
            List.filter_eq_nil_iff.mpr (by intro b hb; simp [hrest b hb])
          simp [List.takeWhile_cons, List.filter_cons, ha, hnil]
        · have hall : List.filter (fun x => decide (c ≤ f x)) rest = rest :=
            List.filter_eq_self.mpr
              (by intro b hb; simp [le_of_not_lt (hrest b hb)])
          simp [List.dropWhile_cons, List.filter_cons, ha, hall,
            le_of_not_lt ha]

/-- Claim C7: on a non-empty, non-decreasing point buffer, `BuildSweep`
moves exactly the points with timestamp strictly below `sweep_endtime` into
the sweep, in order, and leaves exactly the points with timestamp `≥
sweep_endtime` in the buffer (the caller sets `sweep_endtime` to the latest
sample-state timestamp). -/
theorem claim7_buildsweep (points_buff : List Point) (sweep_endtime : ℚ)
    (hne : points_buff ≠ [])
    (hsorted : TimesSorted (fun p => p.time) points_buff) :
    BuildSweep points_buff sweep_endtime =
      some (points_buff.filter (fun p => p.time < sweep_endtime),
            points_buff.filter (fun p => ¬ p.time < sweep_endtime)) ∧
    points_buff.filter (fun p => p.time < sweep_endtime) ++
      points_buff.filter (fun p => ¬ p.time < sweep_endtime) = points_buff := by
  have htf := takeWhile_dropWhile_filter_of_sorted (fun p : Point => p.time)
    sweep_endtime points_buff hsorted
  constructor
  · cases points_buff with
    | nil => exact absurd rfl hne
    | cons a rest =>
        show some _ = some _
        rw [← htf.1, ← htf.2]
  · rw [← htf.1, ← htf.2]
    exact List.takeWhile_append_dropWhile _ points_buff

/-- Witness for `claim7_buildsweep` on a concrete buffer. -/
theorem claim7_buildsweep_witness :
    ([pointAt 0, pointAt 1, pointAt 3] : List Point) ≠ [] ∧
    TimesSorted (fun p => p.time) [pointAt 0, pointAt 1, pointAt 3] ∧
    (BuildSweep [pointAt 0, pointAt 1, pointAt 3] 2 =
      some (([pointAt 0, pointAt 1, pointAt 3]).filter (fun p => p.time < 2),
            ([pointAt 0, pointAt 1, pointAt 3]).filter (fun p => ¬ p.time < 2)) ∧
     ([pointAt 0, pointAt 1, pointAt 3]).filter (fun p => p.time < 2) ++
       ([pointAt 0, pointAt 1, pointAt 3]).filter (fun p => ¬ p.time < 2) =
         [pointAt 0, pointAt 1, pointAt 3]) :=
  ⟨by decide, by decide,
   claim7_buildsweep [pointAt 0, pointAt 1, pointAt 3] 2 (by decide) (by decide)⟩

lemma popSampleSpan_spec {G : Type} (w b : ℚ) :
    ∀ l l' : List (SampleState G), popSampleSpan w b l = some l' →
      ∃ a rest, l' = a :: rest ∧ b - a.timestamp ≤ w ∧ l' <:+ l := by
  intro l
  induction l with
  | nil => intro l' h; simp [popSampleSpan] at h
  | cons s rest ih =>
      intro l' h
      simp only [popSampleSpan] at h
      by_cases hc : w < b - s.timestamp
      · rw [if_pos hc] at h
        obtain ⟨a, r, hl, hle, hsuf⟩ := ih l' h
        exact ⟨a, r, hl, hle, hsuf.trans (List.suffix_cons s rest)⟩
      · rw [if_neg hc] at h
        injection h with h
        exact ⟨s, rest, h.symm, le_of_not_lt hc, h ▸ List.suffix_refl _⟩

lemma dropFrontWhileLt_spec {α : Type} (f : α → ℚ) (bound : ℚ) :
    ∀ l l' : List α, dropFrontWhileLt f bound l = some l' →
      ∃ a rest, l' = a :: rest ∧ ¬ f a < bound ∧ l' <:+ l := by
  intro l
  induction l with
  | nil => intro l' h; simp [dropFrontWhileLt] at h
  | cons s rest ih =>
      intro l' h
      simp only [dropFrontWhileLt] at h
      by_cases hc : f s < bound
      · rw [if_pos hc] at h
        obtain ⟨a, r, hl, hle, hsuf⟩ := ih l' h
        exact ⟨a, r, hl, hle, hsuf.trans (List.suffix_cons s rest)⟩
      · rw [if_neg hc] at h
        injection h with h
        exact ⟨s, rest, h.symm, hc, h ▸ List.suffix_refl _⟩

lemma getLast?_of_suffix {α : Type} {l l' : List α} (h : l' <:+ l)
    (hne : l' ≠ []) : l.getLast? = l'.getLast? := by
  obtain ⟨pre, rfl⟩ := h
  exact List.getLast?_append_of_ne_nil pre hne

/-- Claim C2, amended: for a window whose three deques are non-empty and
already start-ordered (sample ≤ imu ≤ surfel) on entry, whenever
`ShrinkToFit` returns normally (it never reads the front of an emptied
deque), the result again satisfies the start-timestamp ordering and the
sample span fits `sliding_window_duration`. -/
theorem claim2_shrinktofit {G : Type} [One G]
    (samples : List (SampleState G)) (imus : List (ImuState G))
    (surfels : List Surfel) (w : ℚ)
    (hs : samples ≠ []) (hi : imus ≠ []) (hsu : surfels ≠ [])
    (ho1 : (samples.getD 0 dummySample).timestamp
        ≤ (imus.getD 0 dummyImu).timestamp)
    (ho2 : (imus.getD 0 dummyImu).timestamp
        ≤ (surfels.getD 0 { timestamp := 0 }).timestamp)
    (out : List (SampleState G) × List (ImuState G) × List Surfel)
    (hsucc : ShrinkToFit samples imus surfels w = some out) :
    trimmedWindowOK out.1 out.2.1 out.2.2 w := by
  cases samples with
  | nil => exact absurd rfl hs
  | cons s0 stail =>
  cases hl : (s0 :: stail).getLast? with
  | none => simp at hl
  | some sb =>
    simp only [ShrinkToFit, List.head?_cons, hl] at hsucc
    by_cases hspan : sb.timestamp - s0.timestamp ≤ w
    · rw [if_pos hspan] at hsucc
      injection hsucc with hsucc
      subst hsucc
      refine ⟨List.cons_ne_nil _ _, hi, hsu, ho1, ho2, ?_⟩
      rw [hl]
      simpa using hspan
    · rw [if_neg hspan] at hsucc
      cases hp : popSampleSpan w sb.timestamp (s0 :: stail) with
      | none => rw [hp] at hsucc; exact absurd hsucc (by simp)
      | some samples' =>
        rw [hp] at hsucc
        obtain ⟨a, ar, rfl, hspan', hsuf⟩ :=
          popSampleSpan_spec w sb.timestamp _ _ hp
        simp only [List.head?_cons] at hsucc
        cases hdi : dropFrontWhileLt (fun i : ImuState G => i.timestamp)
            a.timestamp imus with
        | none => rw [hdi] at hsucc; exact absurd hsucc (by simp)
        | some imus' =>
          rw [hdi] at hsucc
          obtain ⟨b, br, rfl, hbge, hsufi⟩ :=
            dropFrontWhileLt_spec (fun i : ImuState G => i.timestamp)
              a.timestamp imus _ hdi
          simp only [List.head?_cons] at hsucc
          cases hdu : dropFrontWhileLt (fun s : Surfel => s.timestamp)
              b.timestamp surfels with
          | none => rw [hdu] at hsucc; exact absurd hsucc (by simp)
          | some surfels' =>
            rw [hdu] at hsucc
            obtain ⟨c, cr, rfl, hcge, hsufu⟩ :=
              dropFrontWhileLt_spec (fun s : Surfel => s.timestamp)
                b.timestamp surfels _ hdu
            injection hsucc with hsucc
            subst hsucc
            refine ⟨List.cons_ne_nil _ _, List.cons_ne_nil _ _,
              List.cons_ne_nil _ _, ?_, ?_, ?_⟩
            · simpa using le_of_not_lt hbge
            · simpa using le_of_not_lt hcge
            · have hlast : (a :: ar).getLast? = some sb := by
                rw [← getLast?_of_suffix hsuf (List.cons_ne_nil _ _), hl]
              rw [hlast]
              simpa using hspan'

/-- Claim C2 (as stated) is false: with non-empty, internally non-decreasing
deques whose fronts are not cross-ordered, the early return (span already
within the window) leaves `imu_states.front.t < sample_states.front.t`. -/
theorem claim2_counterexample :
    ([sampleAt 0] : List (SampleState RotW)) ≠ [] ∧
    TimesSorted (fun s : SampleState RotW => s.timestamp) [sampleAt 0] ∧
    TimesSorted (fun i : ImuState RotW => i.timestamp) [imuAt (-1)] ∧
    TimesSorted (fun u : Surfel => u.timestamp) [({ timestamp := -2 } : Surfel)] ∧
    ShrinkToFit [sampleAt 0] [imuAt (-1)] [({ timestamp := -2 } : Surfel)] 1 =
      some ([sampleAt 0], [imuAt (-1)], [{ timestamp := -2 }]) ∧
    ¬ ((sampleAt 0).timestamp ≤ (imuAt (-1)).timestamp) := by
  refine ⟨by decide, by decide, by decide, by decide, ?_,
    by norm_num [sampleAt, imuAt]⟩
  norm_num [ShrinkToFit, sampleAt, imuAt]

/-- Witness for `claim2_shrinktofit` on a concrete window that actually
trims. -/
theorem claim2_shrinktofit_witness :
    ShrinkToFit [sampleAt 0, sampleAt 2] [imuAt 0, imuAt 2]
        [({ timestamp := 1/2 } : Surfel), { timestamp := 2 }] 1 =
      some ([sampleAt 2], [imuAt 2], [{ timestamp := 2 }]) ∧
    trimmedWindowOK [sampleAt 2] [imuAt 2] [({ timestamp := 2 } : Surfel)] 1 :=
  ⟨by norm_num [ShrinkToFit, popSampleSpan, dropFrontWhileLt, sampleAt, imuAt],
   claim2_shrinktofit [sampleAt 0, sampleAt 2] [imuAt 0, imuAt 2]
     [{ timestamp := 1/2 }, { timestamp := 2 }] 1 (by decide) (by decide)
     (by decide) (by norm_num [sampleAt, imuAt, List.getD])
     (by norm_num [imuAt, List.getD])
     ([sampleAt 2], [imuAt 2], [{ timestamp := 2 }])
     (by norm_num [ShrinkToFit, popSampleSpan, dropFrontWhileLt, sampleAt,
       imuAt])⟩

lemma syncDropImu_spec (p : ℚ) :
    ∀ l l', syncDropImu p l = some l' →
      ∃ a rest, l' = a :: rest ∧ ¬ a.timestamp < p ∧ l' <:+ l := by
  intro l
  induction l with
  | nil => intro l' h; exact Option.noConfusion h
  | cons a rest ih =>
      intro l' h
      cases rest with
      | nil =>
          simp only [syncDropImu] at h
          by_cases hc : a.timestamp < p
          · rw [if_pos hc] at h; exact Option.noConfusion h
          · rw [if_neg hc] at h
            injection h with h
            exact ⟨a, [], h.symm, hc, h ▸ List.suffix_refl _⟩
      | cons b more =>
          simp only [syncDropImu] at h
          by_cases hc : a.timestamp < p
          · rw [if_pos hc] at h
            obtain ⟨x, rr, hl, hge, hsuf⟩ := ih l' h
            exact ⟨x, rr, hl, hge, hsuf.trans (List.suffix_cons a (b :: more))⟩
          · rw [if_neg hc] at h
            injection h with h
            exact ⟨a, b :: more, h.symm, hc, h ▸ List.suffix_refl _⟩

lemma syncDropPoints_spec (p : ℚ) :
    ∀ l l', syncDropPoints p l = some l' →
      ∃ a rest, l' = a :: rest ∧ ¬ a.time < p ∧ l' <:+ l := by
  intro l
  induction l with
  | nil => intro l' h; exact Option.noConfusion h
  | cons a rest ih =>
      intro l' h
      cases rest with
      | nil =>
          simp only [syncDropPoints] at h
          by_cases hc : a.time < p
          · rw [if_pos hc] at h; exact Option.noConfusion h
          · rw [if_neg hc] at h
            injection h with h
            exact ⟨a, [], h.symm, hc, h ▸ List.suffix_refl _⟩
      | cons b more =>
          simp only [syncDropPoints] at h
          by_cases hc : a.time < p
          · rw [if_pos hc] at h
            obtain ⟨x, rr, hl, hge, hsuf⟩ := ih l' h
            exact ⟨x, rr, hl, hge, hsuf.trans (List.suffix_cons a (b :: more))⟩
          · rw [if_neg hc] at h
            injection h with h
            exact ⟨a, b :: more, h.symm, hc, h ▸ List.suffix_refl _⟩

/-- Claim C3, amended: under the stated preconditions, whenever the one-shot
head-sync returns normally it pops IMU samples older than the first point and
then points older than the new IMU front, ending with
`points.front.t ≤ imus'.front.t ≤ points'.front.t` — the fronts need not be
*equal* — and it latches the synced flag so later calls trim nothing. -/
theorem claim3_syncheading (imu_buff : List ImuData) (points_buff : List Point)
    (hi : imu_buff ≠ []) (hp : points_buff ≠ [])
    (hcov : (points_buff.getD 0 dummyPoint).time
        ≤ (imu_buff.getLast?.getD dummyMsg).timestamp)
    (r sd' : Bool) (imu' : List ImuData) (pts' : List Point)
    (hsucc : SyncHeadingMsgs false imu_buff points_buff
        = some (r, sd', imu', pts')) :
    r = true ∧ sd' = true ∧ imu' ≠ [] ∧ pts' ≠ [] ∧
    (points_buff.getD 0 dummyPoint).time
        ≤ (imu'.getD 0 dummyMsg).timestamp ∧
    (imu'.getD 0 dummyMsg).timestamp ≤ (pts'.getD 0 dummyPoint).time ∧
    imu' <:+ imu_buff ∧ pts' <:+ points_buff ∧
    SyncHeadingMsgs true imu' pts' = some (true, true, imu', pts') := by
  cases points_buff with
  | nil => exact absurd rfl hp
  | cons p0 ptail =>
  cases hgl : imu_buff.getLast? with
  | none => rw [List.getLast?_eq_none_iff] at hgl; exact absurd hgl hi
  | some ib =>
    rw [hgl] at hcov
    simp only [List.getD_cons_zero, Option.getD_some] at hcov
    simp only [SyncHeadingMsgs, Bool.false_eq_true, if_false, hgl,
      List.head?_cons] at hsucc
    rw [if_neg (not_lt.mpr hcov)] at hsucc
    cases hdi : syncDropImu p0.time imu_buff with
    | none => rw [hdi] at hsucc; exact Option.noConfusion hsucc
    | some imu2 =>
        rw [hdi] at hsucc
        obtain ⟨a, ar, rfl, hage, hsufi⟩ := syncDropImu_spec p0.time _ _ hdi
        simp only [List.head?_cons] at hsucc
        cases hdp : syncDropPoints a.timestamp (p0 :: ptail) with
        | none => rw [hdp] at hsucc; exact Option.noConfusion hsucc
        | some pts2 =>
            rw [hdp] at hsucc
            obtain ⟨b, br, rfl, hbge, hsufp⟩ :=
              syncDropPoints_spec a.timestamp _ _ hdp
            injection hsucc with hsucc
            simp only [Prod.mk.injEq] at hsucc
            obtain ⟨hr, hsd, himu, hpts⟩ := hsucc
            subst hr hsd himu hpts
            refine ⟨rfl, rfl, List.cons_ne_nil _ _, List.cons_ne_nil _ _,
              le_of_not_lt hage, le_of_not_lt hbge, hsufi, hsufp, ?_⟩
            simp [SyncHeadingMsgs]

/-- Claim C3 (as stated) is false: head-sync need not end with *equal* front
timestamps.  With IMU buffer `[t=3]` and points `[t=0, t=5]` it succeeds and
latches, but the fronts end at `3` and `5`. -/
theorem claim3_counterexample :
    ([imuMsgAt 3] : List ImuData) ≠ [] ∧
    ([pointAt 0, pointAt 5] : List Point) ≠ [] ∧
    TimesSorted (fun i : ImuData => i.timestamp) [imuMsgAt 3] ∧
    TimesSorted (fun p : Point => p.time) [pointAt 0, pointAt 5] ∧
    (pointAt 0).time ≤ (imuMsgAt 3).timestamp ∧
    SyncHeadingMsgs false [imuMsgAt 3] [pointAt 0, pointAt 5] =
      some (true, true, [imuMsgAt 3], [pointAt 5]) ∧
    (imuMsgAt 3).timestamp ≠ (pointAt 5).time := by
  decide

/-- Witness for `claim3_syncheading` on concrete buffers. -/
theorem claim3_syncheading_witness :
    (true : Bool) = true ∧ (true : Bool) = true ∧
    ([imuMsgAt 1, imuMsgAt 2] : List ImuData) ≠ [] ∧
    ([pointAt 1, pointAt 5] : List Point) ≠ [] ∧
    (([pointAt 0, pointAt 1, pointAt 5] : List Point).getD 0 dummyPoint).time
        ≤ (([imuMsgAt 1, imuMsgAt 2] : List ImuData).getD 0 dummyMsg).timestamp ∧
    (([imuMsgAt 1, imuMsgAt 2] : List ImuData).getD 0 dummyMsg).timestamp
        ≤ (([pointAt 1, pointAt 5] : List Point).getD 0 dummyPoint).time ∧
    [imuMsgAt 1, imuMsgAt 2] <:+ [imuMsgAt 1, imuMsgAt 2] ∧
    [pointAt 1, pointAt 5] <:+ [pointAt 0, pointAt 1, pointAt 5] ∧
    SyncHeadingMsgs true [imuMsgAt 1, imuMsgAt 2] [pointAt 1, pointAt 5] =
      some (true, true, [imuMsgAt 1, imuMsgAt 2], [pointAt 1, pointAt 5]) :=
  claim3_syncheading [imuMsgAt 1, imuMsgAt 2] [pointAt 0, pointAt 1, pointAt 5]
    (by decide) (by decide) (by decide) true true
    [imuMsgAt 1, imuMsgAt 2] [pointAt 1, pointAt 5] (by decide)

/-- Claim C4: for a correspondence whose bracketing pairs lie strictly inside
the window (both upper-bound indices neither begin nor end), the factor
topology is selected by comparing `R1.t` with `L2.t`: `<` gives the 4-block
disjoint factor, `=` the 3-block adjacent factor, `>` the 2-block
overlapping factor; each is wrapped in a Cauchy loss of scale `0.4`. -/
theorem claim4_lidartopology {G : Type} (sample_states : List (SampleState G))
    (s1t s2t : ℚ) (hlt : s1t < s2t)
    (h10 : upperBoundIdx sample_states s1t ≠ 0)
    (h1n : upperBoundIdx sample_states s1t ≠ sample_states.length)
    (h20 : upperBoundIdx sample_states s2t ≠ 0)
    (h2n : upperBoundIdx sample_states s2t ≠ sample_states.length) :
    lidarTopologyOK sample_states s1t s2t := by
  have hng1 : ¬ (upperBoundIdx sample_states s1t = 0 ∨
      upperBoundIdx sample_states s1t = sample_states.length) := by
    simp [h10, h1n]
  have hng2 : ¬ (upperBoundIdx sample_states s2t = 0 ∨
      upperBoundIdx sample_states s2t = sample_states.length) := by
    simp [h20, h2n]
  have hng3 : ¬ (upperBoundIdx sample_states s1t = 0 ∨
      upperBoundIdx sample_states s1t = sample_states.length ∨
      upperBoundIdx sample_states s2t = 0 ∨
      upperBoundIdx sample_states s2t = sample_states.length) := by
    simp [h10, h1n, h20, h2n]
  have hbase : BuildLidarFactor sample_states s1t s2t =
      (if (sample_states.map (fun s => s.timestamp)).getD
            (upperBoundIdx sample_states s1t) 0 <
          (sample_states.map (fun s => s.timestamp)).getD
            (upperBoundIdx sample_states s2t - 1) 0 then
        some (some ⟨0, Loss.cauchy (2 / 5),
          [upperBoundIdx sample_states s1t - 1, upperBoundIdx sample_states s1t,
            upperBoundIdx sample_states s2t - 1,
            upperBoundIdx sample_states s2t]⟩)
      else if (sample_states.map (fun s => s.timestamp)).getD
            (upperBoundIdx sample_states s1t) 0 =
          (sample_states.map (fun s => s.timestamp)).getD
            (upperBoundIdx sample_states s2t - 1) 0 then
        some (some ⟨1, Loss.cauchy (2 / 5),
          [upperBoundIdx sample_states s1t - 1, upperBoundIdx sample_states s1t,
            upperBoundIdx sample_states s2t]⟩)
      else
        some (some ⟨2, Loss.cauchy (2 / 5),
          [upperBoundIdx sample_states s1t - 1,
            upperBoundIdx sample_states s1t]⟩)) := by
    simp only [BuildLidarFactor]
    rw [if_neg (not_not_intro hlt), if_neg hng1, if_neg hng2, if_neg hng3]
  unfold lidarTopologyOK
  refine ⟨?_, ?_, ?_⟩ <;> intro hcmp
  · rw [hbase, if_pos hcmp]
  · rw [hbase, if_neg (by rw [hcmp]; exact lt_irrefl _), if_pos hcmp]
  · rw [hbase, if_neg (lt_asymm hcmp), if_neg (ne_of_gt hcmp)]

/-- Witness for `claim4_lidartopology` on a four-sample window. -/
theorem claim4_lidartopology_witness :
    ((1 : ℚ) < 5) ∧
    upperBoundIdx [sampleAt 0, sampleAt 2, sampleAt 4, sampleAt 6] (1 : ℚ) ≠ 0 ∧
    upperBoundIdx [sampleAt 0, sampleAt 2, sampleAt 4, sampleAt 6] (1 : ℚ) ≠
      ([sampleAt 0, sampleAt 2, sampleAt 4, sampleAt 6] : List (SampleState RotW)).length ∧
    upperBoundIdx [sampleAt 0, sampleAt 2, sampleAt 4, sampleAt 6] (5 : ℚ) ≠ 0 ∧
    upperBoundIdx [sampleAt 0, sampleAt 2, sampleAt 4, sampleAt 6] (5 : ℚ) ≠
      ([sampleAt 0, sampleAt 2, sampleAt 4, sampleAt 6] : List (SampleState RotW)).length ∧
    lidarTopologyOK [sampleAt 0, sampleAt 2, sampleAt 4, sampleAt 6] 1 5 :=
  ⟨by decide, by decide, by decide, by decide, by decide,
   claim4_lidartopology [sampleAt 0, sampleAt 2, sampleAt 4, sampleAt 6] 1 5
     (by decide) (by decide) (by decide) (by decide) (by decide)⟩

/-- Claim C8: across one solve-and-correct pass, if the black-box solver
respects the subset-constant parameterization pinning entries 3..5
(`pos_cor`) of the first sample state's `data_cor`, and that slot was zero
before the solve (it is zeroed by every Corrector pass and zero at
creation), then the first sample state's translation is exactly its
pre-solve value. -/
theorem claim8_pinned_translation {G : Type} [Mul G] [One G] (exp : Vec → G)
    (pre post : List (SampleState G))
    (hc : SolveRespectsPinning pre post)
    (hne : pre ≠ [])
    (hz : (pre.getD 0 dummySample).pos_cor = 0) :
    ((UpdateSamplePoses exp post).getD 0 dummySample).pos
      = (pre.getD 0 dummySample).pos := by
  obtain ⟨hlen, hfields⟩ := hc
  have h0 : 0 < pre.length := List.length_pos.mpr hne
  have h0p : 0 < post.length := by rw [hlen]; exact h0
  obtain ⟨hf, hpin⟩ := hfields 0 h0
  have hppc : (post.getD 0 dummySample).pos_cor = 0 := by rw [hpin rfl, hz]
  have step : ((UpdateSamplePoses exp post).getD 0 dummySample).pos
      = (post.getD 0 dummySample).pos_cor + (post.getD 0 dummySample).pos := by
    unfold UpdateSamplePoses
    rw [getD_map_of_lt _ post 0 dummySample dummySample h0p]
  rw [step, hppc, hf.2.1, zero_add]

/-- Witness for `claim8_pinned_translation`: the solver leaves only
`rot_cor` changed; translation survives bit-identically. -/
theorem claim8_pinned_translation_witness :
    SolveRespectsPinning [sampleAt 0]
        [{ sampleAt 0 with rot_cor := (1, 0, 0) }] ∧
    ([sampleAt 0] : List (SampleState RotW)) ≠ [] ∧
    (([sampleAt 0] : List (SampleState RotW)).getD 0 dummySample).pos_cor = 0 ∧
    ((UpdateSamplePoses expW
        [{ sampleAt 0 with rot_cor := (1, 0, 0) }]).getD 0 dummySample).pos
      = (([sampleAt 0] : List (SampleState RotW)).getD 0 dummySample).pos :=
  ⟨by unfold SolveRespectsPinning; decide, by decide, by decide,
   claim8_pinned_translation expW [sampleAt 0]
     [{ sampleAt 0 with rot_cor := (1, 0, 0) }]
     (by unfold SolveRespectsPinning; decide) (by decide) (by decide)⟩

lemma predictLoop_chain {G : Type} [Mul G] (exp : Vec → G)
    (act : G → Vec → Vec) (dt : ℚ) (ba bg grav : Vec) (end_time : ℚ) :
    ∀ (buff : List ImuData) (p2 p1 : ImuState G),
      chainStepsOK exp act dt ba bg grav p2 p1
        (predictLoop exp act dt ba bg grav end_time buff p2 p1).1 := by
  intro buff
  induction buff with
  | nil => intro p2 p1; exact trivial
  | cons msg rest ih =>
      intro p2 p1
      simp only [predictLoop]
      by_cases hb : end_time ≤ (mkPredictedImu exp act dt ba bg grav p2 p1 msg).timestamp
      · rw [if_pos hb]
        exact ⟨⟨rfl, rfl⟩, trivial⟩
      · rw [if_neg hb]
        exact ⟨⟨rfl, rfl⟩, ih p1 (mkPredictedImu exp act dt ba bg grav p2 p1 msg)⟩

lemma chainSteps_getD {G : Type} [Mul G] [One G] (exp : Vec → G)
    (act : G → Vec → Vec) (dt : ℚ) (ba bg grav : Vec) :
    ∀ (l : List (ImuState G)) (a b : ImuState G),
      chainStepsOK exp act dt ba bg grav a b l →
      ∀ i, i + 2 < l.length + 2 →
        centralStepOK exp act dt ba bg grav
          ((a :: b :: l).getD i dummyImu)
          ((a :: b :: l).getD (i + 1) dummyImu)
          ((a :: b :: l).getD (i + 2) dummyImu) := by
  intro l
  induction l with
  | nil => intro a b _ i hi; rw [List.length_nil] at hi; omega
  | cons c rest ih =>
      intro a b h i hi
      obtain ⟨hstep, hrest⟩ := h
      cases i with
      | zero => simpa [List.getD_cons_zero, List.getD_cons_succ] using hstep
      | succ j =>
          have hj : j + 2 < rest.length + 2 := by
            simp only [List.length_cons] at hi
            omega
          have hrec := ih b c hrest j hj
          simpa [List.getD_cons_succ] using hrec

lemma predict_from_uninit {G : Type} [Mul G] [One G]
    (exp : Vec → G) (act : G → Vec → Vec) (slerp : ℚ → G → G → G)
    (normalize : Vec → Vec) (cfg : Config) (m0 m1 : ImuData)
    (rest : List ImuData) (end_time : ℚ)
    (out : List ImuData × List (ImuState G) × List (SampleState G))
    (hsucc : PredictImuStatesAndSampleStates exp act slerp normalize cfg false
        (m0 :: m1 :: rest) [] [] end_time = some out) :
    ∃ ext, out =
      ((predictLoop exp act (1 / cfg.imu_rate)
          (initWindow exp normalize cfg.gravity_norm (1 / cfg.imu_rate) m0 m1).ss.ba
          (initWindow exp normalize cfg.gravity_norm (1 / cfg.imu_rate) m0 m1).ss.bg
          (initWindow exp normalize cfg.gravity_norm (1 / cfg.imu_rate) m0 m1).ss.grav
          end_time rest
          (initWindow exp normalize cfg.gravity_norm (1 / cfg.imu_rate) m0 m1).imu0
          (initWindow exp normalize cfg.gravity_norm (1 / cfg.imu_rate) m0 m1).imu1).2,
       (initWindow exp normalize cfg.gravity_norm (1 / cfg.imu_rate) m0 m1).imu0 ::
         (initWindow exp normalize cfg.gravity_norm (1 / cfg.imu_rate) m0 m1).imu1 ::
         (predictLoop exp act (1 / cfg.imu_rate)
           (initWindow exp normalize cfg.gravity_norm (1 / cfg.imu_rate) m0 m1).ss.ba
           (initWindow exp normalize cfg.gravity_norm (1 / cfg.imu_rate) m0 m1).ss.bg
           (initWindow exp normalize cfg.gravity_norm (1 / cfg.imu_rate) m0 m1).ss.grav
           end_time rest
           (initWindow exp normalize cfg.gravity_norm (1 / cfg.imu_rate) m0 m1).imu0
           (initWindow exp normalize cfg.gravity_norm (1 / cfg.imu_rate) m0 m1).imu1).1,
       (initWindow exp normalize cfg.gravity_norm (1 / cfg.imu_rate) m0 m1).ss :: ext) := by
  simp only [PredictImuStatesAndSampleStates] at hsucc
  rw [if_neg (by simp only [List.length_cons]; omega)] at hsucc
  simp only [Bool.false_eq_true, if_false, List.nil_append,
    List.getLast?_singleton, List.reverse_cons, List.reverse_nil,
    List.singleton_append, List.cons_append] at hsucc
  by_cases hsd : cfg.sample_dt ≤ 0
  · rw [if_pos hsd] at hsucc
    exact Option.noConfusion hsucc
  · rw [if_neg hsd] at hsucc
    cases hext : extendSamples slerp
        (initWindow exp normalize cfg.gravity_norm (1 / cfg.imu_rate) m0 m1).ss.ba
        (initWindow exp normalize cfg.gravity_norm (1 / cfg.imu_rate) m0 m1).ss.bg
        (initWindow exp normalize cfg.gravity_norm (1 / cfg.imu_rate) m0 m1).ss.grav
        ((initWindow exp normalize cfg.gravity_norm (1 / cfg.imu_rate) m0 m1).imu0 ::
          (initWindow exp normalize cfg.gravity_norm (1 / cfg.imu_rate) m0 m1).imu1 ::
          (predictLoop exp act (1 / cfg.imu_rate)
            (initWindow exp normalize cfg.gravity_norm (1 / cfg.imu_rate) m0 m1).ss.ba
            (initWindow exp normalize cfg.gravity_norm (1 / cfg.imu_rate) m0 m1).ss.bg
            (initWindow exp normalize cfg.gravity_norm (1 / cfg.imu_rate) m0 m1).ss.grav
            end_time rest
            (initWindow exp normalize cfg.gravity_norm (1 / cfg.imu_rate) m0 m1).imu0
            (initWindow exp normalize cfg.gravity_norm (1 / cfg.imu_rate) m0 m1).imu1).1)
        (initWindow exp normalize cfg.gravity_norm (1 / cfg.imu_rate) m0 m1).ss.timestamp
        cfg.sample_dt end_time with
    | none => rw [hext] at hsucc; exact Option.noConfusion hsucc
    | some ext =>
        rw [hext] at hsucc
        injection hsucc with hsucc
        exact ⟨ext, hsucc.symm⟩

/-- Claim C5: starting the predictor on an uninitialized window, every IMU
state appended by the integration loop (index `i ≥ 2`, phrased as the triple
`i, i+1, i+2`) satisfies the two-step central recurrence
`rot = rot_prev · Exp((½(gyr_prev + gyr) − bg)·dt)` and
`pos = 2·pos_prev − pos_prevprev + (rot_prevprev·(acc_prevprev − ba) + grav)·dt²`,
with `ba`, `bg`, `grav` taken from the latest (initial) sample state and
`dt = 1/imu_rate`. -/
theorem claim5_predict_recurrence {G : Type} [Mul G] [One G]
    (exp : Vec → G) (act : G → Vec → Vec) (slerp : ℚ → G → G → G)
    (normalize : Vec → Vec) (cfg : Config) (m0 m1 : ImuData)
    (rest : List ImuData) (end_time : ℚ)
    (out : List ImuData × List (ImuState G) × List (SampleState G))
    (hsucc : PredictImuStatesAndSampleStates exp act slerp normalize cfg false
        (m0 :: m1 :: rest) [] [] end_time = some out)
    (i : ℕ) (hi : i + 2 < out.2.1.length) :
    centralStepOK exp act (1 / cfg.imu_rate)
      (out.2.2.getD 0 dummySample).ba (out.2.2.getD 0 dummySample).bg
      (out.2.2.getD 0 dummySample).grav
      (out.2.1.getD i dummyImu) (out.2.1.getD (i + 1) dummyImu)
      (out.2.1.getD (i + 2) dummyImu) := by
  obtain ⟨ext, rfl⟩ :=
    predict_from_uninit exp act slerp normalize cfg m0 m1 rest end_time out hsucc
  dsimp only at hi ⊢
  rw [List.length_cons, List.length_cons] at hi
  simp only [List.getD_cons_zero]
  exact chainSteps_getD exp act (1 / cfg.imu_rate) _ _ _ _ _ _
    (predictLoop_chain exp act (1 / cfg.imu_rate) _ _ _ end_time rest _ _) i hi

/-- Claim C6: the one-time initialization creates IMU state 0 with identity
rotation and zero position at `m0`'s timestamp, IMU state 1 with rotation
`Exp(½(gyr₀+gyr₁)·dt)` and zero position, and exactly one first sample state
at state 0's timestamp with zero biases, gravity
`-gravity_norm · normalize(acc₀)`, and pose copied from state 0. -/
theorem claim6_initialization {G : Type} [Mul G] [One G]
    (exp : Vec → G) (act : G → Vec → Vec) (slerp : ℚ → G → G → G)
    (normalize : Vec → Vec) (cfg : Config) (m0 m1 : ImuData)
    (rest : List ImuData) (end_time : ℚ)
    (out : List ImuData × List (ImuState G) × List (SampleState G))
    (hsucc : PredictImuStatesAndSampleStates exp act slerp normalize cfg false
        (m0 :: m1 :: rest) [] [] end_time = some out) :
    (out.2.1.getD 0 dummyImu).rot = 1 ∧
    (out.2.1.getD 0 dummyImu).pos = 0 ∧
    (out.2.1.getD 0 dummyImu).timestamp = m0.timestamp ∧
    (out.2.1.getD 1 dummyImu).rot =
      exp ((1 / cfg.imu_rate) •
        ((1 / 2 : ℚ) • (m0.angular_velocity + m1.angular_velocity))) ∧
    (out.2.1.getD 1 dummyImu).pos = 0 ∧
    (∃ tail, out.2.2 =
      { timestamp := m0.timestamp, pos := 0, rot := 1, ba := 0, bg := 0,
        grav := -cfg.gravity_norm • normalize m0.linear_acceleration,
        rot_cor := 0, pos_cor := 0, ba_cor := 0, bg_cor := 0 } :: tail) := by
  obtain ⟨ext, rfl⟩ :=
    predict_from_uninit exp act slerp normalize cfg m0 m1 rest end_time out hsucc
  exact ⟨rfl, rfl, rfl, rfl, rfl, ⟨ext, rfl⟩⟩

/-- Witness for `claim6_initialization` on two concrete IMU samples. -/
theorem claim6_initialization_witness :
    (imuAt 0 : ImuState RotW).rot = 1 ∧
    (imuAt 0 : ImuState RotW).pos = 0 ∧
    (imuAt 0 : ImuState RotW).timestamp = (imuMsgAt 0).timestamp ∧
    (imuAt 1 : ImuState RotW).rot =
      expW ((1 / cfgW.imu_rate) •
        ((1 / 2 : ℚ) •
          ((imuMsgAt 0).angular_velocity + (imuMsgAt 1).angular_velocity))) ∧
    (imuAt 1 : ImuState RotW).pos = 0 ∧
    (∃ tail, ([sampleAt 0] : List (SampleState RotW)) =
      { timestamp := (imuMsgAt 0).timestamp, pos := 0, rot := 1, ba := 0,
        bg := 0,
        grav := -cfgW.gravity_norm • normalizeW (imuMsgAt 0).linear_acceleration,
        rot_cor := 0, pos_cor := 0, ba_cor := 0, bg_cor := 0 } :: tail) :=
  claim6_initialization expW actW slerpW normalizeW cfgW (imuMsgAt 0)
    (imuMsgAt 1) [] 0 ([], [imuAt 0, imuAt 1], [sampleAt 0])
    (by norm_num [PredictImuStatesAndSampleStates, initWindow, predictLoop,
      extendSamples, sampleTimes, mkExtendedSample, imuAt, imuMsgAt, sampleAt,
      cfgW, expW, normalizeW, Rat.ceil, Int.toNat_zero, List.range_zero,
      List.filterMap_nil, List.foldlM_nil])

/-- Witness for `claim5_predict_recurrence`: a four-state run at unit rate
with zero readings; the first appended triple satisfies the recurrence. -/
theorem claim5_predict_recurrence_witness :
    centralStepOK expW actW (1 / cfgW.imu_rate) (sampleAt 0).ba (sampleAt 0).bg
      (sampleAt 0).grav (imuAt 0) (imuAt 1) (imuAt 2) :=
  claim5_predict_recurrence expW actW slerpW normalizeW cfgW (imuMsgAt 0)
    (imuMsgAt 1) [imuMsgAt 2, imuMsgAt 3] 100
    ([], [imuAt 0, imuAt 1, imuAt 2, imuAt 3], [sampleAt 0])
    (by norm_num [PredictImuStatesAndSampleStates, initWindow, predictLoop,
      mkPredictedImu, extendSamples, sampleTimes, mkExtendedSample, imuAt,
      imuMsgAt, sampleAt, cfgW, expW, actW, normalizeW, Rat.ceil,
      List.range_succ, List.range_zero, List.nil_append, List.filterMap_nil,
      List.filterMap_cons, List.foldlM_nil, Nat.cast_zero])
    0 (by decide)

lemma getD_zero_of_all_zero (vs : List Vec) (h : ∀ x ∈ vs, x = 0) (j : ℕ) :
    vs.getD j 0 = 0 := by
  rcases lt_or_ge j vs.length with hj | hj
  · rw [List.getD_eq_getElem?_getD, List.getElem?_eq_getElem hj]
    exact h _ (List.getElem_mem hj)
  · exact List.getD_eq_default _ _ hj

lemma bsplineEval_of_zero_controls (ts : List ℚ) (vs : List Vec)
    (h : ∀ x ∈ vs, x = 0) (t : ℚ) : bsplineEval ⟨ts, vs⟩ t = 0 := by
  unfold bsplineEval
  dsimp only
  rw [getD_zero_of_all_zero vs h, getD_zero_of_all_zero vs h,
    getD_zero_of_all_zero vs h, getD_zero_of_all_zero vs h]
  simp

lemma getCorr_of_zero_cors {G : Type} (samples : List (SampleState G))
    (hz : ∀ s ∈ samples, s.rot_cor = 0 ∧ s.pos_cor = 0) (t : ℚ) :
    getCorr samples t = none ∨ getCorr samples t = some (0, 0) := by
  have hr : ∀ x ∈ samples.map (fun s => s.rot_cor), x = 0 := by
    intro x hx
    obtain ⟨s, hs, rfl⟩ := List.mem_map.mp hx
    exact (hz s hs).1
  have hp : ∀ x ∈ samples.map (fun s => s.pos_cor), x = 0 := by
    intro x hx
    obtain ⟨s, hs, rfl⟩ := List.mem_map.mp hx
    exact (hz s hs).2
  unfold getCorr CubicBSplineSampleCorrector CubicBSplineInterpolator.interp
  dsimp only
  cases h0 : (samples.map (fun s => s.timestamp)).head? with
  | none => left; rfl
  | some t0 =>
      cases hN : (samples.map (fun s => s.timestamp)).getLast? with
      | none => left; rfl
      | some tN =>
          dsimp only
          by_cases hin : t0 ≤ t ∧ t ≤ tN
          · right
            rw [if_pos hin, if_pos hin]
            rw [bsplineEval_of_zero_controls _ _ hr t,
              bsplineEval_of_zero_controls _ _ hp t]
          · left
            rw [if_neg hin, if_neg hin]

lemma corrStep_id {G : Type} [Monoid G] (exp : Vec → G)
    (hexp : exp 0 = 1) (samples : List (SampleState G))
    (hz : ∀ s ∈ samples, s.rot_cor = 0 ∧ s.pos_cor = 0) (s : ImuState G) :
    corrStep exp samples s = s := by
  unfold corrStep
  rcases getCorr_of_zero_cors samples hz s.timestamp with h | h
  · rw [h]
  · rw [h]
    simp [hexp, one_mul]

lemma fixChain_self {G : Type} [Group G] (act : G → Vec → Vec)
    (hact_mul : ∀ g h v, act (g * h) v = act g (act h v))
    (hact_neg : ∀ g v, act g (-v) = -(act g v)) :
    ∀ (l : List (ImuState G)) (a : ImuState G), fixChain act l a a = l := by
  intro l
  induction l with
  | nil => intro a; rfl
  | cons o rest ih =>
      intro a
      simp only [fixChain]
      have hn : ({ o with
          pos := (rigidMul act (rigidMul act (rigidOf o)
            (rigidInv act (rigidOf a))) (rigidOf a)).t,
          rot := (rigidMul act (rigidMul act (rigidOf o)
            (rigidInv act (rigidOf a))) (rigidOf a)).r } : ImuState G) = o := by
        simp only [rigidMul, rigidInv, rigidOf, hact_neg, hact_mul,
          inv_mul_cancel_right, neg_add_cancel_right]
      rw [hn, ih o]

lemma firstTrue_le_lastTrue :
    ∀ (l : List Bool) (f m : ℕ), firstTrueIdx l = some f →
      lastTrueIdx l = some m → f ≤ m := by
  intro l
  induction l with
  | nil => intro f m hf _; exact Option.noConfusion hf
  | cons b rest ih =>
      intro f m hf hm
      simp only [firstTrueIdx, lastTrueIdx] at hf hm
      by_cases hb : b = true
      · rw [if_pos hb] at hf
        injection hf with hf
        subst hf
        exact Nat.zero_le m
      · rw [if_neg hb] at hf
        cases hr : firstTrueIdx rest with
        | none => rw [hr] at hf; exact Option.noConfusion hf
        | some f' =>
            rw [hr] at hf
            injection hf with hf
            cases hlr : lastTrueIdx rest with
            | none =>
                rw [hlr] at hm
                rw [if_neg hb] at hm
                exact Option.noConfusion hm
            | some k =>
                rw [hlr] at hm
                injection hm with hm
                subst hf hm
                exact Nat.succ_le_succ (ih f' k hr hlr)

/-- Claim C9: if every sample state's `rot_cor` and `pos_cor` are zero, the
Corrector's IMU-trajectory update (B-spline interpolation inside the support
plus relative-transform extrapolation at head and tail) leaves every IMU
state unchanged. -/
theorem claim9_corrector_identity {G : Type} [Group G] (exp : Vec → G)
    (act : G → Vec → Vec) (hexp : exp 0 = 1)
    (hact_mul : ∀ g h v, act (g * h) v = act g (act h v))
    (hact_neg : ∀ g v, act g (-v) = -(act g v))
    (sample_states : List (SampleState G)) (imu_states : List (ImuState G))
    (hz : ∀ s ∈ sample_states, s.rot_cor = 0 ∧ s.pos_cor = 0) :
    UpdateImuPoses exp act sample_states imu_states = imu_states := by
  have hmap : imu_states.map (corrStep exp sample_states) = imu_states := by
    have hpt : ∀ s ∈ imu_states, corrStep exp sample_states s = id s :=
      fun s _ => corrStep_id exp hexp sample_states hz s
    rw [List.map_congr_left hpt, List.map_id]
  simp only [UpdateImuPoses]
  rw [hmap]
  cases hf : firstTrueIdx (corrFlags sample_states imu_states) with
  | none =>
      cases hl : lastTrueIdx (corrFlags sample_states imu_states) <;> rfl
  | some f =>
      cases hl : lastTrueIdx (corrFlags sample_states imu_states) with
      | none => rfl
      | some m =>
          dsimp only
          rw [fixChain_self act hact_mul hact_neg,
            fixChain_self act hact_mul hact_neg, List.reverse_reverse]
          have hfm : f ≤ m := firstTrue_le_lastTrue _ _ _ hf hl
          have hdd : imu_states.drop (m + 1)
              = (imu_states.drop f).drop (m + 1 - f) := by
            rw [List.drop_drop]
            congr 1
            omega
          rw [hdd, List.append_assoc, List.take_append_drop,
            List.take_append_drop]

/-- Witness for `claim9_corrector_identity` on a concrete two-sample,
two-IMU-state window with zero corrections. -/
theorem claim9_corrector_identity_witness :
    expW 0 = 1 ∧
    (∀ (g h : RotW) (v : Vec), actW (g * h) v = actW g (actW h v)) ∧
    (∀ (g : RotW) (v : Vec), actW g (-v) = -actW g v) ∧
    (∀ s ∈ ([sampleAt 0, sampleAt 1] : List (SampleState RotW)),
      s.rot_cor = 0 ∧ s.pos_cor = 0) ∧
    UpdateImuPoses expW actW [sampleAt 0, sampleAt 1] [imuAt 0, imuAt 1] =
      [imuAt 0, imuAt 1] :=
  ⟨rfl, fun _ _ _ => rfl, fun _ _ => rfl, by decide,
   claim9_corrector_identity expW actW rfl (fun _ _ _ => rfl) (fun _ _ => rfl)
     [sampleAt 0, sampleAt 1] [imuAt 0, imuAt 1] (by decide)⟩
